import Mathlib

/-!
Shallow embedding of the core of the `hypervisor-rs` driver:
the trampoline synthesis engine (`src/hypervisor/src/utils/function_hook.rs`),
the VM host-stack setup (`src/hypervisor/src/intel/vmstack.rs`) and the
processor-pinning guard (`src/hypervisor/src/x86_64/utils/processor.rs`).

External collaborators (the iced_x86 decoder/encoder and the Windows kernel
routines IoAllocateMdl, KeGetProcessorNumberFromIndex, ZwYieldExecution) are
modelled as explicit parameters of the embedded functions; every embedded
function follows the control flow of its Rust source line by line.
-/

/-- Control-flow classification of a decoded instruction, mirroring
`iced_x86::FlowControl` as consumed by `trampoline_shellcode`. -/
inductive FlowControl where
  | Next
  | Return
  | Call
  | ConditionalBranch
  | UnconditionalBranch
  | IndirectCall
  | IndirectBranch
  | Interrupt
  | XbeginXabortXend
  | Exception
deriving DecidableEq

/-- A decoded instruction as observed by the relocation loop in
`FunctionHook::trampoline_shellcode`: `is_invalid()`, `len()`,
`is_ip_rel_memory_operand()` and `flow_control()`. -/
structure Instr where
  is_invalid : Bool
  len : Nat
  is_ip_rel_memory_operand : Bool
  flow_control : FlowControl
deriving DecidableEq

/-- The error variants of `HypervisorError` reachable from
`trampoline_shellcode`. -/
inductive HypervisorError where
  | InvalidBytes
  | RelativeInstruction
  | UnsupportedInstruction
  | NotEnoughBytes
  | NoInstructions
  | EncodingFailed
deriving DecidableEq

/-- `pub const JMP_SHELLCODE_LEN: usize = 14;` -/
def JMP_SHELLCODE_LEN : Nat := 14

/-- `pub const BP_SHELLCODE_LEN: usize = 1;` -/
def BP_SHELLCODE_LEN : Nat := 1

/-- `x86::bits64::paging::BASE_PAGE_SIZE` (4 KiB). -/
def BASE_PAGE_SIZE : Nat := 4096

/-- Combined byte length of a list of decoded instructions
(the running `total_bytes` of the relocation loop). -/
def sumLen (l : List Instr) : Nat := (l.map Instr.len).sum

/-- Little-endian bytes of a 64-bit store, modelling
`(shellcode.as_mut_ptr().add(6) as *mut u64).write_volatile(target_address)`. -/
def u64_le_bytes (v : Nat) : List Nat :=
  [v % 256, v / 2 ^ 8 % 256, v / 2 ^ 16 % 256, v / 2 ^ 24 % 256,
   v / 2 ^ 32 % 256, v / 2 ^ 40 % 256, v / 2 ^ 48 % 256, v / 2 ^ 56 % 256]

/-- `FunctionHook::jmp_shellcode`: `ff 25 00 00 00 00` (jmp [rip+0]) followed
by the 8-byte absolute target address overwriting the `0xCC` filler. -/
def jmp_shellcode (target_address : Nat) : List Nat :=
  [0xff, 0x25, 0x00, 0x00, 0x00, 0x00] ++ u64_le_bytes target_address

/-- The `for instr in &mut decoder` loop of `trampoline_shellcode`:
walks the decoded stream with the running `total_bytes` and the accumulated
`trampoline` instruction list, in the exact order of the source checks
(`is_invalid` first, then the break on `total_bytes >= required_size`, then
`is_ip_rel_memory_operand`, then the `flow_control` match). -/
def relocate_loop (required_size : Nat) :
    List Instr → Nat → List Instr → Except HypervisorError (Nat × List Instr)
  | [], total_bytes, trampoline => .ok (total_bytes, trampoline)
  | instr :: rest, total_bytes, trampoline =>
    if instr.is_invalid = true then .error .InvalidBytes
    else if required_size ≤ total_bytes then .ok (total_bytes, trampoline)
    else if instr.is_ip_rel_memory_operand = true then .error .RelativeInstruction
    else
      match instr.flow_control with
      | .Next | .Return =>
        relocate_loop required_size rest (total_bytes + instr.len) (trampoline ++ [instr])
      | .Call | .ConditionalBranch | .UnconditionalBranch | .IndirectCall =>
        .error .RelativeInstruction
      | .IndirectBranch | .Interrupt | .XbeginXabortXend | .Exception =>
        .error .UnsupportedInstruction

/-- `FunctionHook::trampoline_shellcode`.  The iced_x86 decoder is abstracted
by `decodeAt` (the instruction stream decoded from the bytes at `address`) and
the `BlockEncoder` by `encode` (re-encoding of the accumulated instructions,
`none` meaning encoding failure).  The returned buffer models the
`Box::new_uninit_slice(total_bytes + JMP_SHELLCODE_LEN)` allocation:
`none` entries are bytes the final `copy_nonoverlapping` left uninitialized,
and `take` keeps the buffer at its allocated size.  The jump-back target is
`original_address + encoded.len()` exactly as in the source. -/
def trampoline_shellcode (encode : List Instr → Option (List Nat))
    (decodeAt : Nat → List Instr) (original_address address : Nat)
    (required_size : Nat) : Except HypervisorError (List (Option Nat)) :=
  match relocate_loop required_size (decodeAt address) 0 [] with
  | .error e => .error e
  | .ok (total_bytes, trampoline) =>
    if total_bytes < required_size then .error .NotEnoughBytes
    else if trampoline = [] then .error .NoInstructions
    else
      match encode trampoline with
      | none => .error .EncodingFailed
      | some encoded =>
        .ok (((encoded ++ jmp_shellcode (original_address + encoded.length)).map some
              ++ List.replicate (total_bytes + JMP_SHELLCODE_LEN) none).take
              (total_bytes + JMP_SHELLCODE_LEN))

/-- `HookType`: jump-based or breakpoint-based hook. -/
inductive HookType where
  | Jmp
  | Breakpoint
deriving DecidableEq

/-- A memory descriptor list as produced by `IoAllocateMdl(base, size, ..)`:
the virtual base address and byte count it describes. -/
structure Mdl where
  base : Nat
  size : Nat
deriving DecidableEq

/-- The `FunctionHook` object (trampoline, hook site, handler, locked MDL,
variant tag). -/
structure FunctionHook where
  trampoline : List (Option Nat)
  hook_address : Nat
  handler : Nat
  mdl : Mdl
  hook_type : HookType
deriving DecidableEq

/-- `FunctionHook::new`: builds the breakpoint trampoline via
`trampoline_shellcode(original_address, hook_address, BP_SHELLCODE_LEN)`,
then calls `IoAllocateMdl(original_address as _, BASE_PAGE_SIZE as _, ..)`
(modelled by `ioAllocateMdl`, `none` meaning a null MDL) and returns `none`
on either failure. -/
def FunctionHook.new (ioAllocateMdl : Nat → Nat → Option Mdl)
    (encode : List Instr → Option (List Nat)) (decodeAt : Nat → List Instr)
    (original_address hook_address handler : Nat) : Option FunctionHook :=
  match trampoline_shellcode encode decodeAt original_address hook_address
      BP_SHELLCODE_LEN with
  | .error _ => none
  | .ok trampoline =>
    match ioAllocateMdl original_address BASE_PAGE_SIZE with
    | none => none
    | some mdl =>
      some { trampoline := trampoline, hook_address := hook_address,
             handler := handler, mdl := mdl, hook_type := .Breakpoint }

/-- `RtlCopyMemory(dst, src.as_ptr(), src.len())` over a byte-addressed
memory, modelled as a function update on the written range. -/
def RtlCopyMemory (mem : Nat → Nat) (dst : Nat) (src : List Nat) : Nat → Nat :=
  fun a => if dst ≤ a ∧ a < dst + src.length then src.getD (a - dst) 0 else mem a

/-- The `jmp_to_handler` shellcode chosen by `FunctionHook::enable`:
the 14-byte jump to the handler for `Jmp`, the single `0xCC` (INT3) byte for
`Breakpoint`. -/
def FunctionHook.jmp_to_handler (h : FunctionHook) : List Nat :=
  match h.hook_type with
  | .Jmp => jmp_shellcode h.handler
  | .Breakpoint => [0xCC]

/-- `FunctionHook::enable`: writes the variant's shellcode at `hook_address`
with `RtlCopyMemory`. -/
def FunctionHook.enable (h : FunctionHook) (mem : Nat → Nat) : Nat → Nat :=
  RtlCopyMemory mem h.hook_address h.jmp_to_handler

/-- `pub const KERNEL_STACK_SIZE: usize = 0x6000;` -/
def KERNEL_STACK_SIZE : Nat := 0x6000

/-- `pub const STACK_CONTENTS_SIZE: usize = KERNEL_STACK_SIZE - size_of::<*mut u64>() * 4;` -/
def STACK_CONTENTS_SIZE : Nat := KERNEL_STACK_SIZE - 8 * 4

/-- `u64::MAX`. -/
def U64_MAX : Nat := 2 ^ 64 - 1

/-- The `VmStack` record: the stack-contents buffer, the `vmx` context
back-pointer and the three 8-byte padding slots, as laid out in
`vmstack.rs`. -/
structure VmStack where
  stack_contents : List Nat
  vmx : Nat
  padding_3 : Nat
  padding_2 : Nat
  padding_1 : Nat
deriving DecidableEq

/-- Byte size of the `VmStack` layout: the contents buffer plus the `vmx`
pointer and the three `u64` padding slots (8 bytes each), matching
`const_assert_eq!(size_of::<VmStack>(), KERNEL_STACK_SIZE)`. -/
def VMSTACK_SIZE : Nat := STACK_CONTENTS_SIZE + 8 * 4

/-- `VmStack::setup`: zeroes `stack_contents`, writes `u64::MAX` into the
three padding slots, leaves `vmx` untouched and returns `Ok(())`. -/
def VmStack.setup (vmstack : VmStack) : Except HypervisorError VmStack :=
  .ok { vmstack with
        stack_contents := List.replicate STACK_CONTENTS_SIZE 0,
        padding_3 := U64_MAX,
        padding_2 := U64_MAX,
        padding_1 := U64_MAX }

/-- `PROCESSOR_NUMBER`: a group number and a group-relative processor
number. -/
structure PROCESSOR_NUMBER where
  Group : Nat
  Number : Nat
deriving DecidableEq

/-- `GROUP_AFFINITY`: group, affinity mask and the reserved words. -/
structure GROUP_AFFINITY where
  Group : Nat
  Mask : Nat
  Reserved : List Nat
deriving DecidableEq

/-- The calling thread's scheduling state visible to this core: its current
group affinity. -/
structure ThreadState where
  affinity : GROUP_AFFINITY
deriving DecidableEq

/-- The platform environment of `switch_to_processor`:
`KeQueryActiveProcessorCountEx` (the live logical-processor count),
`KeGetProcessorNumberFromIndex` (index-to-number resolution, `none` for a
non-success status) and the success of `ZwYieldExecution`. -/
structure ProcEnv where
  processor_count : Nat
  getProcessorNumberFromIndex : Nat → Option PROCESSOR_NUMBER
  yieldSuccess : Bool

/-- `ProcessorExecutor`: the guard holding the captured previous affinity. -/
structure ProcessorExecutor where
  old_affinity : GROUP_AFFINITY
deriving DecidableEq

/-- `ProcessorExecutor::switch_to_processor(i)`: rejects `i > processor_count()`,
resolves the index, captures the current affinity, applies the new affinity
(`Group`, `Mask = 1 << Number`, zeroed `Reserved`) via
`KeSetSystemGroupAffinityThread`, then yields; a failed yield returns `none`
with the new affinity already applied. -/
def switch_to_processor (env : ProcEnv) (i : Nat) (st : ThreadState) :
    Option ProcessorExecutor × ThreadState :=
  if env.processor_count < i then (none, st)
  else
    match env.getProcessorNumberFromIndex i with
    | none => (none, st)
    | some processor_number =>
      let old_affinity := st.affinity
      let affinity : GROUP_AFFINITY :=
        { Group := processor_number.Group,
          Mask := 2 ^ processor_number.Number,
          Reserved := [0, 0, 0] }
      let st2 : ThreadState := { affinity := affinity }
      if env.yieldSuccess then (some { old_affinity := old_affinity }, st2)
      else (none, st2)

/-- `Drop for ProcessorExecutor`: `KeRevertToUserGroupAffinityThread`
restores the captured previous affinity. -/
def ProcessorExecutor.drop (g : ProcessorExecutor) (_st : ThreadState) :
    ThreadState :=
  { affinity := g.old_affinity }

/-- An instruction the relocation loop accumulates verbatim: well-formed,
no instruction-pointer-relative memory operand, and `Next` (sequential) or
`Return` control flow. -/
abbrev accumulatable (i : Instr) : Prop :=
  i.is_invalid = false ∧ i.is_ip_rel_memory_operand = false ∧
    (i.flow_control = FlowControl.Next ∨ i.flow_control = FlowControl.Return)

/-- A well-formed sequential instruction of byte length `n`, used as a
concrete test fixture. -/
def seqInstr (n : Nat) : Instr :=
  { is_invalid := false, len := n, is_ip_rel_memory_operand := false,
    flow_control := .Next }

/-- A malformed instruction (`is_invalid()` true), used as a concrete test
fixture. -/
def invalidInstr : Instr :=
  { is_invalid := true, len := 0, is_ip_rel_memory_operand := false,
    flow_control := .Next }

/-- A concrete length-preserving re-encoder: every instruction re-encodes to
`len` NOP bytes. -/
def encNop (l : List Instr) : Option (List Nat) :=
  some (l.foldr (fun i acc => List.replicate i.len 0x90 ++ acc) [])

/-- A concrete decoded stream: one 1-byte sequential instruction at every
address. -/
def dSeq1 : Nat → List Instr := fun _ => [seqInstr 1]

/-- A concrete decoded stream: a 1-byte sequential instruction followed by a
malformed instruction, at every address. -/
def dSeq1Invalid : Nat → List Instr := fun _ => [seqInstr 1, invalidInstr]

/-- A recording MDL allocator: always succeeds and records the requested base
and size in the descriptor. -/
def recMdl : Nat → Nat → Option Mdl := fun base size => some { base := base, size := size }

/-- A concrete platform environment: one live processor, every index resolves
to processor number 0 of group 0, the yield succeeds. -/
def env1 : ProcEnv :=
  { processor_count := 1,
    getProcessorNumberFromIndex := fun _ => some { Group := 0, Number := 0 },
    yieldSuccess := true }

/-- `env1` with a failing `ZwYieldExecution`. -/
def env2 : ProcEnv :=
  { processor_count := 1,
    getProcessorNumberFromIndex := fun _ => some { Group := 0, Number := 0 },
    yieldSuccess := false }

/-- A concrete initial thread state with a recognizable affinity. -/
def st0 : ThreadState := { affinity := { Group := 5, Mask := 5, Reserved := [0, 0, 0] } }

/-- A concrete decoded stream: a single malformed instruction at every
address. -/
def dInv : Nat → List Instr := fun _ => [invalidInstr]

/-- A concrete decoded stream: two sequential instructions followed by a
malformed one. -/
def d41 : Nat → List Instr := fun _ => [seqInstr 2, seqInstr 3, invalidInstr]

/-- A concrete decoded stream: two sequential instructions of different
lengths than `d41` past the first. -/
def d42 : Nat → List Instr := fun _ => [seqInstr 2, seqInstr 5]

/-- The concrete trampoline produced for `dSeq1` at address `4096`. -/
def buf1 : List (Option Nat) :=
  (trampoline_shellcode encNop dSeq1 4096 4096 1).toOption.getD []

/-- The concrete trampoline produced for `dSeq1` at address `0x2000`. -/
def buf2 : List (Option Nat) :=
  (trampoline_shellcode encNop dSeq1 0x2000 0x2000 1).toOption.getD []

/-- A concrete jump-variant hook at address 100 with handler `0xdead`. -/
def hkJ : FunctionHook :=
  { trampoline := [], hook_address := 100, handler := 0xdead,
    mdl := { base := 0, size := 0 }, hook_type := .Jmp }

/-- A concrete all-zero memory. -/
def mem0 : Nat → Nat := fun _ => 0

/-- The concrete hook object produced by `FunctionHook.new` with the
recording allocator, `original_address = 4096`, `hook_address = 8192`. -/
def hk0 : FunctionHook :=
  (FunctionHook.new recMdl encNop dSeq1 4096 8192 7).getD
    { trampoline := [], hook_address := 0, handler := 0,
      mdl := { base := 0, size := 0 }, hook_type := .Breakpoint }

/-- The guard produced by pinning from `st0` under `env1`. -/
def g1 : ProcessorExecutor :=
  { old_affinity := { Group := 5, Mask := 5, Reserved := [0, 0, 0] } }

/-- The thread state right after pinning to processor 0 of group 0. -/
def stAfter : ThreadState :=
  { affinity := { Group := 0, Mask := 1, Reserved := [0, 0, 0] } }

/-! ## Helper lemmas about the relocation loop -/

theorem sumLen_nil : sumLen [] = 0 := rfl

theorem sumLen_cons (i : Instr) (l : List Instr) :
    sumLen (i :: l) = i.len + sumLen l := by
  simp [sumLen]

theorem sumLen_append (l1 l2 : List Instr) :
    sumLen (l1 ++ l2) = sumLen l1 + sumLen l2 := by
  simp [sumLen]

theorem relocate_loop_cons_invalid (required_size : Nat) (i : Instr)
    (rest : List Instr) (total : Nat) (tramp : List Instr)
    (hi : i.is_invalid = true) :
    relocate_loop required_size (i :: rest) total tramp = .error .InvalidBytes := by
  simp [relocate_loop, hi]

theorem relocate_loop_cons_stop (required_size : Nat) (i : Instr)
    (rest : List Instr) (total : Nat) (tramp : List Instr)
    (hi : i.is_invalid = false) (hge : required_size ≤ total) :
    relocate_loop required_size (i :: rest) total tramp = .ok (total, tramp) := by
  simp [relocate_loop, hi, hge]

theorem relocate_loop_cons_iprel (required_size : Nat) (i : Instr)
    (rest : List Instr) (total : Nat) (tramp : List Instr)
    (hi : i.is_invalid = false) (hlt : total < required_size)
    (hr : i.is_ip_rel_memory_operand = true) :
    relocate_loop required_size (i :: rest) total tramp
      = .error .RelativeInstruction := by
  have h2 : ¬ required_size ≤ total := by omega
  simp [relocate_loop, hi, h2, hr]

theorem relocate_loop_cons_acc (required_size : Nat) (i : Instr)
    (rest : List Instr) (total : Nat) (tramp : List Instr)
    (hacc : accumulatable i) (hlt : total < required_size) :
    relocate_loop required_size (i :: rest) total tramp
      = relocate_loop required_size rest (total + i.len) (tramp ++ [i]) := by
  obtain ⟨hi, hr, hf⟩ := hacc
  have h2 : ¬ required_size ≤ total := by omega
  rcases hf with hf | hf <;> simp [relocate_loop, hi, h2, hr, hf]

theorem relocate_loop_cons_branch (required_size : Nat) (i : Instr)
    (rest : List Instr) (total : Nat) (tramp : List Instr)
    (hi : i.is_invalid = false) (hlt : total < required_size)
    (hr : i.is_ip_rel_memory_operand = false)
    (hf : i.flow_control = FlowControl.Call ∨
          i.flow_control = FlowControl.ConditionalBranch ∨
          i.flow_control = FlowControl.UnconditionalBranch ∨
          i.flow_control = FlowControl.IndirectCall) :
    relocate_loop required_size (i :: rest) total tramp
      = .error .RelativeInstruction := by
  have h2 : ¬ required_size ≤ total := by omega
  rcases hf with hf | hf | hf | hf <;> simp [relocate_loop, hi, h2, hr, hf]

theorem relocate_loop_cons_unsupported (required_size : Nat) (i : Instr)
    (rest : List Instr) (total : Nat) (tramp : List Instr)
    (hi : i.is_invalid = false) (hlt : total < required_size)
    (hr : i.is_ip_rel_memory_operand = false)
    (hf : i.flow_control = FlowControl.IndirectBranch ∨
          i.flow_control = FlowControl.Interrupt ∨
          i.flow_control = FlowControl.XbeginXabortXend ∨
          i.flow_control = FlowControl.Exception) :
    relocate_loop required_size (i :: rest) total tramp
      = .error .UnsupportedInstruction := by
  have h2 : ¬ required_size ≤ total := by omega
  rcases hf with hf | hf | hf | hf <;> simp [relocate_loop, hi, h2, hr, hf]

theorem relocate_loop_sum (required_size : Nat) :
    ∀ (l : List Instr) (total : Nat) (tramp : List Instr) (t : Nat)
      (tr : List Instr),
      relocate_loop required_size l total tramp = .ok (t, tr) →
      t + sumLen tramp = total + sumLen tr := by
  intro l
  induction l with
  | nil =>
    intro total tramp t tr h
    simp [relocate_loop] at h
    obtain ⟨rfl, rfl⟩ := h
    rfl
  | cons i rest ih =>
    intro total tramp t tr h
    by_cases hi : i.is_invalid = true
    · rw [relocate_loop_cons_invalid _ _ _ _ _ hi] at h
      exact absurd h (by simp)
    · have hi' : i.is_invalid = false := by
        revert hi
        cases i.is_invalid <;> simp
      by_cases hge : required_size ≤ total
      · rw [relocate_loop_cons_stop _ _ _ _ _ hi' hge] at h
        simp at h
        obtain ⟨rfl, rfl⟩ := h
        rfl
      · have hlt : total < required_size := by omega
        by_cases hr : i.is_ip_rel_memory_operand = true
        · rw [relocate_loop_cons_iprel _ _ _ _ _ hi' hlt hr] at h
          exact absurd h (by simp)
        · have hr' : i.is_ip_rel_memory_operand = false := by
            revert hr
            cases i.is_ip_rel_memory_operand <;> simp
          cases hf : i.flow_control with
          | Next =>
            rw [relocate_loop_cons_acc _ _ _ _ _ ⟨hi', hr', Or.inl hf⟩ hlt] at h
            have := ih (total + i.len) (tramp ++ [i]) t tr h
            rw [sumLen_append, sumLen_cons, sumLen_nil] at this
            omega
          | Return =>
            rw [relocate_loop_cons_acc _ _ _ _ _ ⟨hi', hr', Or.inr hf⟩ hlt] at h
            have := ih (total + i.len) (tramp ++ [i]) t tr h
            rw [sumLen_append, sumLen_cons, sumLen_nil] at this
            omega
          | Call =>
            rw [relocate_loop_cons_branch _ _ _ _ _ hi' hlt hr'
              (Or.inl hf)] at h
            exact absurd h (by simp)
          | ConditionalBranch =>
            rw [relocate_loop_cons_branch _ _ _ _ _ hi' hlt hr'
              (Or.inr (Or.inl hf))] at h
            exact absurd h (by simp)
          | UnconditionalBranch =>
            rw [relocate_loop_cons_branch _ _ _ _ _ hi' hlt hr'
              (Or.inr (Or.inr (Or.inl hf)))] at h
            exact absurd h (by simp)
          | IndirectCall =>
            rw [relocate_loop_cons_branch _ _ _ _ _ hi' hlt hr'
              (Or.inr (Or.inr (Or.inr hf)))] at h
            exact absurd h (by simp)
          | IndirectBranch =>
            rw [relocate_loop_cons_unsupported _ _ _ _ _ hi' hlt hr'
              (Or.inl hf)] at h
            exact absurd h (by simp)
          | Interrupt =>
            rw [relocate_loop_cons_unsupported _ _ _ _ _ hi' hlt hr'
              (Or.inr (Or.inl hf))] at h
            exact absurd h (by simp)
          | XbeginXabortXend =>
            rw [relocate_loop_cons_unsupported _ _ _ _ _ hi' hlt hr'
              (Or.inr (Or.inr (Or.inl hf)))] at h
            exact absurd h (by simp)
          | Exception =>
            rw [relocate_loop_cons_unsupported _ _ _ _ _ hi' hlt hr'
              (Or.inr (Or.inr (Or.inr hf)))] at h
            exact absurd h (by simp)

theorem relocate_loop_run (required_size : Nat) :
    ∀ (pre l : List Instr) (total : Nat) (tramp : List Instr),
      (∀ i ∈ pre, accumulatable i) →
      (∀ k, k < pre.length → total + sumLen (pre.take k) < required_size) →
      relocate_loop required_size (pre ++ l) total tramp
        = relocate_loop required_size l (total + sumLen pre) (tramp ++ pre) := by
  intro pre
  induction pre with
  | nil =>
    intro l total tramp _ _
    simp [sumLen_nil]
  | cons i pre' ih =>
    intro l total tramp hacc hk
    have hlt : total < required_size := by
      have := hk 0 (by simp)
      simpa [sumLen_nil] using this
    rw [List.cons_append,
      relocate_loop_cons_acc _ _ _ _ _ (hacc i (by simp)) hlt,
      ih l (total + i.len) (tramp ++ [i]) (fun j hj => hacc j (by simp [hj]))
        (fun k hkk => by
          have := hk (k + 1) (by simpa using Nat.succ_lt_succ hkk)
          simpa [sumLen_cons, Nat.add_assoc] using this)]
    rw [sumLen_cons]
    simp [Nat.add_assoc]

theorem sumLen_take_le (l : List Instr) (k : Nat) : sumLen (l.take k) ≤ sumLen l := by
  conv_rhs => rw [← List.take_append_drop k l]
  rw [sumLen_append]
  omega

theorem encNop_length : ∀ (l : List Instr) (bs : List Nat),
    encNop l = some bs → bs.length = sumLen l := by
  intro l bs h
  simp only [encNop, Option.some.injEq] at h
  subst h
  induction l with
  | nil => rfl
  | cons i t ih =>
    simp only [List.foldr_cons, List.length_append, List.length_replicate,
      sumLen_cons, ih]

theorem trampoline_shellcode_error (encode : List Instr → Option (List Nat))
    (decodeAt : Nat → List Instr) (original_address address required_size : Nat)
    (e : HypervisorError)
    (h : relocate_loop required_size (decodeAt address) 0 [] = .error e) :
    trampoline_shellcode encode decodeAt original_address address required_size
      = .error e := by
  unfold trampoline_shellcode
  rw [h]

theorem trampoline_shellcode_ok (encode : List Instr → Option (List Nat))
    (decodeAt : Nat → List Instr) (original_address address required_size : Nat)
    (total_bytes : Nat) (trampoline : List Instr)
    (h : relocate_loop required_size (decodeAt address) 0 []
        = .ok (total_bytes, trampoline)) :
    trampoline_shellcode encode decodeAt original_address address required_size
      = (if total_bytes < required_size then .error .NotEnoughBytes
         else if trampoline = [] then .error .NoInstructions
         else
           match encode trampoline with
           | none => .error .EncodingFailed
           | some encoded =>
             .ok (((encoded
                    ++ jmp_shellcode (original_address + encoded.length)).map some
                   ++ List.replicate (total_bytes + JMP_SHELLCODE_LEN) none).take
                   (total_bytes + JMP_SHELLCODE_LEN))) := by
  unfold trampoline_shellcode
  rw [h]

/-- C7: the `VmStack` layout size is the compile-time constant
`KERNEL_STACK_SIZE`, a multiple of the page size, and `setup` zeroes every
byte of `stack_contents`, writes the all-ones sentinel `u64::MAX` into the
three padding slots, and leaves the `vmx` back-pointer exactly as it was
immediately before the call. -/
theorem C7_vmstack_setup (s : VmStack) :
    VMSTACK_SIZE = KERNEL_STACK_SIZE ∧
    VMSTACK_SIZE % BASE_PAGE_SIZE = 0 ∧
    U64_MAX = 2 ^ 64 - 1 ∧
    VmStack.setup s =
      .ok { stack_contents := List.replicate STACK_CONTENTS_SIZE 0,
            vmx := s.vmx,
            padding_3 := U64_MAX,
            padding_2 := U64_MAX,
            padding_1 := U64_MAX } :=
  ⟨by decide, by decide, rfl, rfl⟩

/-- C6: `enable` writes exactly the variant's shellcode at `hook_address` —
`[0xCC]` for `Breakpoint`, the 14-byte absolute jump targeting the handler
for `Jmp` — leaves every other address untouched, and re-enabling writes the
same bytes (byte-level idempotence). -/
theorem C6_enable_writes_shellcode (h : FunctionHook) (mem : Nat → Nat) :
    (h.hook_type = HookType.Breakpoint → h.jmp_to_handler = [0xCC]) ∧
    (h.hook_type = HookType.Jmp →
      h.jmp_to_handler = jmp_shellcode h.handler ∧
      h.jmp_to_handler.length = JMP_SHELLCODE_LEN ∧
      h.jmp_to_handler.drop 6 = u64_le_bytes h.handler) ∧
    (∀ k, k < h.jmp_to_handler.length →
      h.enable mem (h.hook_address + k) = h.jmp_to_handler.getD k 0) ∧
    (∀ a, a < h.hook_address ∨ h.hook_address + h.jmp_to_handler.length ≤ a →
      h.enable mem a = mem a) ∧
    h.enable (h.enable mem) = h.enable mem := by
  refine ⟨?_, ?_, ?_, ?_, ?_⟩
  · intro ht
    simp [FunctionHook.jmp_to_handler, ht]
  · intro ht
    refine ⟨by simp [FunctionHook.jmp_to_handler, ht], ?_, ?_⟩
    · simp [FunctionHook.jmp_to_handler, ht, jmp_shellcode, u64_le_bytes,
        JMP_SHELLCODE_LEN]
    · simp [FunctionHook.jmp_to_handler, ht, jmp_shellcode]
  · intro k hk
    simp only [FunctionHook.enable, RtlCopyMemory]
    rw [if_pos ⟨Nat.le_add_right _ _, by omega⟩]
    congr 1
    omega
  · intro a ha
    simp only [FunctionHook.enable, RtlCopyMemory]
    rw [if_neg]
    rintro ⟨h1, h2⟩
    rcases ha with ha | ha <;> omega
  · funext a
    simp only [FunctionHook.enable, RtlCopyMemory]
    by_cases hc : h.hook_address ≤ a ∧ a < h.hook_address + h.jmp_to_handler.length
    · simp [hc]
    · simp [hc]

/-- Witness for C6 at the concrete jump hook `hkJ` and the zero memory. -/
theorem C6_enable_writes_shellcode_witness :
    hkJ.jmp_to_handler = jmp_shellcode hkJ.handler ∧
    hkJ.enable mem0 (hkJ.hook_address + 6) = hkJ.jmp_to_handler.getD 6 0 ∧
    hkJ.enable mem0 99 = mem0 99 ∧
    hkJ.enable (hkJ.enable mem0) = hkJ.enable mem0 :=
  ⟨((C6_enable_writes_shellcode hkJ mem0).2.1 rfl).1,
   (C6_enable_writes_shellcode hkJ mem0).2.2.1 6 (by decide),
   (C6_enable_writes_shellcode hkJ mem0).2.2.2.1 99 (Or.inl (by decide)),
   (C6_enable_writes_shellcode hkJ mem0).2.2.2.2⟩

/-- C8 counterexample: the guard in `switch_to_processor` is
`i > processor_count()`, so the out-of-range index `i = processor_count()`
passes the count check; on a platform that resolves that index
(`env1`), the call succeeds and mutates the thread's affinity instead of
failing without mutation. -/
theorem C8_counterexample :
    env1.processor_count ≤ 1 ∧
    (switch_to_processor env1 1 st0).1.isSome = true ∧
    (switch_to_processor env1 1 st0).2.affinity ≠ st0.affinity := by
  refine ⟨by decide, rfl, by decide⟩

/-- C8 amended: every index strictly greater than the live processor count
fails without mutating the affinity state, and so does every index the
platform cannot resolve to a processor number; the index equal to the count
is not rejected by the count check itself. -/
theorem C8_out_of_range_no_mutation (env : ProcEnv) (i : Nat)
    (st : ThreadState) :
    (env.processor_count < i → switch_to_processor env i st = (none, st)) ∧
    (env.getProcessorNumberFromIndex i = none →
      switch_to_processor env i st = (none, st)) := by
  constructor
  · intro hlt
    simp [switch_to_processor, hlt]
  · intro hn
    by_cases hlt : env.processor_count < i
    · simp [switch_to_processor, hlt]
    · simp [switch_to_processor, hlt, hn]

/-- Witness for the amended C8: index 5 on a 1-processor system fails and
leaves the state unchanged. -/
theorem C8_out_of_range_no_mutation_witness :
    switch_to_processor env1 5 st0 = (none, st0) :=
  (C8_out_of_range_no_mutation env1 5 st0).1 (by decide)

/-- C9: on every successful pin, the guard holds exactly the affinity the
thread had at pin time, and dropping it restores that affinity whatever the
thread state has become in between — so pin-then-drop round-trips the
affinity. -/
theorem C9_drop_restores_affinity (env : ProcEnv) (i : Nat)
    (st st2 : ThreadState) (g : ProcessorExecutor)
    (h : switch_to_processor env i st = (some g, st2)) :
    g.old_affinity = st.affinity ∧
    ∀ st3 : ThreadState,
      (ProcessorExecutor.drop g st3).affinity = st.affinity := by
  unfold switch_to_processor at h
  split at h
  · exact absurd h (by simp)
  · split at h
    · exact absurd h (by simp)
    · dsimp only at h
      split at h
      · have h1 := congrArg Prod.fst h
        simp only [Prod.fst] at h1
        have h2 := Option.some.inj h1
        have hg : g.old_affinity = st.affinity := by rw [← h2]
        exact ⟨hg, fun st3 => by simp [ProcessorExecutor.drop, hg]⟩
      · exact absurd h (by simp)

/-- Witness for C9: pinning from `st0` under `env1` yields the guard `g1`
capturing `st0`'s affinity, and dropping it restores that affinity from the
pinned state `stAfter`. -/
theorem C9_drop_restores_affinity_witness :
    g1.old_affinity = st0.affinity ∧
    (ProcessorExecutor.drop g1 stAfter).affinity = st0.affinity :=
  ⟨(C9_drop_restores_affinity env1 0 st0 stAfter g1 (by decide)).1,
   (C9_drop_restores_affinity env1 0 st0 stAfter g1 (by decide)).2 stAfter⟩

/-- C10: when the yield reports non-success after the new affinity is
applied, `switch_to_processor` returns no guard and the thread state keeps
the affinity of the requested processor — the captured previous affinity is
not restored. -/
theorem C10_yield_failure_leaves_new_affinity (env : ProcEnv) (i : Nat)
    (st : ThreadState) (pn : PROCESSOR_NUMBER)
    (hle : i ≤ env.processor_count)
    (hpn : env.getProcessorNumberFromIndex i = some pn)
    (hyield : env.yieldSuccess = false) :
    switch_to_processor env i st =
      (none, { affinity := { Group := pn.Group, Mask := 2 ^ pn.Number,
                             Reserved := [0, 0, 0] } }) := by
  have hnlt : ¬ env.processor_count < i := by omega
  simp [switch_to_processor, hnlt, hpn, hyield]

/-- Witness for C10 under `env2` (failing yield): the state is left pinned to
processor 0 of group 0, not restored to `st0`'s affinity. -/
theorem C10_yield_failure_leaves_new_affinity_witness :
    switch_to_processor env2 0 st0 =
      (none, { affinity := { Group := 0, Mask := 1, Reserved := [0, 0, 0] } }) :=
  C10_yield_failure_leaves_new_affinity env2 0 st0 { Group := 0, Number := 0 }
    (by decide) rfl rfl

/-- C1: every successful `trampoline_shellcode` call returns a buffer whose
length is exactly the combined byte length of the relocated original
instructions plus the fixed 14-byte jump-sequence length — the size the
buffer is allocated at once and keeps. -/
theorem C1_trampoline_length (encode : List Instr → Option (List Nat))
    (decodeAt : Nat → List Instr) (original_address address required_size : Nat)
    (buf : List (Option Nat))
    (h : trampoline_shellcode encode decodeAt original_address address
        required_size = .ok buf) :
    ∃ total_bytes relocated,
      relocate_loop required_size (decodeAt address) 0 []
        = .ok (total_bytes, relocated) ∧
      total_bytes = sumLen relocated ∧
      buf.length = total_bytes + JMP_SHELLCODE_LEN := by
  cases hloop : relocate_loop required_size (decodeAt address) 0 [] with
  | error e =>
    rw [trampoline_shellcode_error encode decodeAt original_address address
      required_size e hloop] at h
    exact absurd h (by simp)
  | ok p =>
    obtain ⟨total, tramp⟩ := p
    rw [trampoline_shellcode_ok encode decodeAt original_address address
      required_size total tramp hloop] at h
    by_cases h1 : total < required_size
    · rw [if_pos h1] at h
      exact absurd h (by simp)
    · rw [if_neg h1] at h
      by_cases h2 : tramp = []
      · rw [if_pos h2] at h
        exact absurd h (by simp)
      · rw [if_neg h2] at h
        cases henc : encode tramp with
        | none =>
          rw [henc] at h
          exact absurd h (by simp)
        | some encoded =>
          rw [henc] at h
          have hbuf : buf = ((encoded
              ++ jmp_shellcode (original_address + encoded.length)).map some
              ++ List.replicate (total + JMP_SHELLCODE_LEN) none).take
              (total + JMP_SHELLCODE_LEN) := (Except.ok.inj h).symm
          refine ⟨total, tramp, rfl, ?_, ?_⟩
          · have hs := relocate_loop_sum required_size (decodeAt address) 0 []
              total tramp hloop
            simpa [sumLen_nil] using hs
          · rw [hbuf, List.length_take, List.length_append,
              List.length_replicate]
            omega

/-- Witness for C1 at the concrete stream `dSeq1` (one 1-byte sequential
instruction): the trampoline is 1 + 14 bytes long. -/
theorem C1_trampoline_length_witness :
    ∃ total_bytes relocated,
      relocate_loop 1 (dSeq1 4096) 0 []
        = .ok (total_bytes, relocated) ∧
      total_bytes = sumLen relocated ∧
      buf1.length = total_bytes + JMP_SHELLCODE_LEN :=
  C1_trampoline_length encNop dSeq1 4096 4096 1 buf1 rfl

theorem jmp_shellcode_length (target_address : Nat) :
    (jmp_shellcode target_address).length = JMP_SHELLCODE_LEN := by
  simp [jmp_shellcode, u64_le_bytes, JMP_SHELLCODE_LEN]

/-- C2: for every successful synthesis with a length-preserving re-encoder,
the final 14 bytes of the trampoline are the absolute-jump sequence whose
target is `original_address + total_bytes`, the address of the first
original instruction not overwritten by the hook. -/
theorem C2_trampoline_tail (encode : List Instr → Option (List Nat))
    (decodeAt : Nat → List Instr) (original_address address required_size : Nat)
    (buf : List (Option Nat))
    (hencode : ∀ l bs, encode l = some bs → bs.length = sumLen l)
    (h : trampoline_shellcode encode decodeAt original_address address
        required_size = .ok buf) :
    ∃ total_bytes relocated,
      relocate_loop required_size (decodeAt address) 0 []
        = .ok (total_bytes, relocated) ∧
      total_bytes = sumLen relocated ∧
      buf.length = total_bytes + JMP_SHELLCODE_LEN ∧
      buf.drop total_bytes
        = (jmp_shellcode (original_address + total_bytes)).map some := by
  cases hloop : relocate_loop required_size (decodeAt address) 0 [] with
  | error e =>
    rw [trampoline_shellcode_error encode decodeAt original_address address
      required_size e hloop] at h
    exact absurd h (by simp)
  | ok p =>
    obtain ⟨total, tramp⟩ := p
    rw [trampoline_shellcode_ok encode decodeAt original_address address
      required_size total tramp hloop] at h
    by_cases h1 : total < required_size
    · rw [if_pos h1] at h
      exact absurd h (by simp)
    · rw [if_neg h1] at h
      by_cases h2 : tramp = []
      · rw [if_pos h2] at h
        exact absurd h (by simp)
      · rw [if_neg h2] at h
        cases henc : encode tramp with
        | none =>
          rw [henc] at h
          exact absurd h (by simp)
        | some encoded =>
          rw [henc] at h
          have hbuf : buf = ((encoded
              ++ jmp_shellcode (original_address + encoded.length)).map some
              ++ List.replicate (total + JMP_SHELLCODE_LEN) none).take
              (total + JMP_SHELLCODE_LEN) := (Except.ok.inj h).symm
          have hsum : total = sumLen tramp := by
            simpa [sumLen_nil] using relocate_loop_sum required_size
              (decodeAt address) 0 [] total tramp hloop
          have hlen : encoded.length = total := by
            rw [hencode tramp encoded henc]
            exact hsum.symm
          have hbufA : buf = (encoded
              ++ jmp_shellcode (original_address + encoded.length)).map some := by
            rw [hbuf,
              show total + JMP_SHELLCODE_LEN = ((encoded
                ++ jmp_shellcode (original_address + encoded.length)).map
                  some).length by
                simp [List.length_map, List.length_append, jmp_shellcode_length,
                  hlen]]
            exact List.take_left _ _
          refine ⟨total, tramp, rfl, hsum, ?_, ?_⟩
          · rw [hbufA]
            simp [List.length_map, List.length_append, jmp_shellcode_length,
              hlen]
          · rw [hbufA, ← List.map_drop, ← hlen, List.drop_left]

/-- Witness for C2 at the concrete stream `dSeq1`: the trampoline's tail is
the jump to `0x2000 + 1`. -/
theorem C2_trampoline_tail_witness :
    ∃ total_bytes relocated,
      relocate_loop 1 (dSeq1 0x2000) 0 []
        = .ok (total_bytes, relocated) ∧
      total_bytes = sumLen relocated ∧
      buf2.length = total_bytes + JMP_SHELLCODE_LEN ∧
      buf2.drop total_bytes
        = (jmp_shellcode (0x2000 + total_bytes)).map some :=
  C2_trampoline_tail encNop dSeq1 0x2000 0x2000 1 buf2 encNop_length rfl

/-- C3: while the loop is still accumulating toward the required minimum
(the accumulated prefix `pre` sums to less than `required_size`), the
instruction it examines next decides the outcome exactly as the source
classifies it: malformed fails with `InvalidBytes`; an
instruction-pointer-relative memory operand fails with
`RelativeInstruction` whatever the control-flow class; `Call`,
`ConditionalBranch`, `UnconditionalBranch` and `IndirectCall` fail with
`RelativeInstruction`; `IndirectBranch`, `Interrupt` and the special
hardware-transition opcodes fail with `UnsupportedInstruction`; and only a
sequential (`Next`) or `Return` instruction is accumulated toward the byte
total. -/
theorem C3_classification (encode : List Instr → Option (List Nat))
    (decodeAt : Nat → List Instr)
    (original_address address required_size : Nat)
    (pre : List Instr) (instr : Instr) (rest : List Instr)
    (hd : decodeAt address = pre ++ instr :: rest)
    (hpre : ∀ i ∈ pre, accumulatable i)
    (hsum : sumLen pre < required_size) :
    (instr.is_invalid = true →
      trampoline_shellcode encode decodeAt original_address address
        required_size = .error .InvalidBytes) ∧
    (instr.is_invalid = false → instr.is_ip_rel_memory_operand = true →
      trampoline_shellcode encode decodeAt original_address address
        required_size = .error .RelativeInstruction) ∧
    (instr.is_invalid = false → instr.is_ip_rel_memory_operand = false →
      (instr.flow_control = FlowControl.Call ∨
       instr.flow_control = FlowControl.ConditionalBranch ∨
       instr.flow_control = FlowControl.UnconditionalBranch ∨
       instr.flow_control = FlowControl.IndirectCall) →
      trampoline_shellcode encode decodeAt original_address address
        required_size = .error .RelativeInstruction) ∧
    (instr.is_invalid = false → instr.is_ip_rel_memory_operand = false →
      (instr.flow_control = FlowControl.IndirectBranch ∨
       instr.flow_control = FlowControl.Interrupt ∨
       instr.flow_control = FlowControl.XbeginXabortXend ∨
       instr.flow_control = FlowControl.Exception) →
      trampoline_shellcode encode decodeAt original_address address
        required_size = .error .UnsupportedInstruction) ∧
    (accumulatable instr →
      relocate_loop required_size (decodeAt address) 0 []
        = relocate_loop required_size rest (sumLen pre + instr.len)
            (pre ++ [instr])) := by
  have hrun : relocate_loop required_size (decodeAt address) 0 []
      = relocate_loop required_size (instr :: rest) (sumLen pre) pre := by
    rw [hd, relocate_loop_run required_size pre (instr :: rest) 0 [] hpre
      (fun k hk => by
        have := sumLen_take_le pre k
        omega)]
    simp only [Nat.zero_add, List.nil_append]
  refine ⟨?_, ?_, ?_, ?_, ?_⟩
  · intro hi
    exact trampoline_shellcode_error _ _ _ _ _ _
      (hrun.trans (relocate_loop_cons_invalid _ _ _ _ _ hi))
  · intro hi hr
    exact trampoline_shellcode_error _ _ _ _ _ _
      (hrun.trans (relocate_loop_cons_iprel _ _ _ _ _ hi hsum hr))
  · intro hi hr hf
    exact trampoline_shellcode_error _ _ _ _ _ _
      (hrun.trans (relocate_loop_cons_branch _ _ _ _ _ hi hsum hr hf))
  · intro hi hr hf
    exact trampoline_shellcode_error _ _ _ _ _ _
      (hrun.trans (relocate_loop_cons_unsupported _ _ _ _ _ hi hsum hr hf))
  · intro hacc
    exact hrun.trans (relocate_loop_cons_acc _ _ _ _ _ hacc hsum)

/-- Witness for C3: a malformed first instruction makes synthesis fail with
`InvalidBytes`. -/
theorem C3_classification_witness :
    trampoline_shellcode encNop dInv 0 0 1 = .error .InvalidBytes :=
  (C3_classification encNop dInv 0 0 1 [] invalidInstr [] rfl
    (by intro i hi; exact absurd hi (by simp)) (by decide)).1 rfl

/-- C4 counterexample: the claim fails on the code.  With required size 1,
the stream consisting of a single valid 1-byte sequential instruction
synthesizes successfully, but appending a malformed instruction *after* the
minimum has been covered turns the outcome into `InvalidBytes`: the loop
checks `is_invalid` before the `total_bytes >= required_size` break, so an
instruction past the accumulated minimum can change the outcome. -/
theorem C4_counterexample :
    sumLen [seqInstr 1] = 1 ∧
    (trampoline_shellcode encNop dSeq1 0 0 1).toOption.isSome = true ∧
    trampoline_shellcode encNop dSeq1Invalid 0 0 1
      = .error .InvalidBytes :=
  ⟨rfl, rfl, rfl⟩

/-- C4 amended: once `Sequential`/`Return` instructions covering at least
the required minimum have been accumulated, decoding stops at the next
*valid* instruction; the outcome can still change only through the validity
of that immediately following decoded instruction, and no instruction past
it — nor anything else about it — can change the outcome of synthesis. -/
theorem C4_break_after_minimum (encode : List Instr → Option (List Nat))
    (d1 d2 : Nat → List Instr)
    (original_address address required_size : Nat)
    (pre : List Instr) (i1 i2 : Instr) (rest1 rest2 : List Instr)
    (hd1 : d1 address = pre ++ i1 :: rest1)
    (hd2 : d2 address = pre ++ i2 :: rest2)
    (hpre : ∀ i ∈ pre, accumulatable i)
    (hk : ∀ k, k < pre.length → sumLen (pre.take k) < required_size)
    (hge : required_size ≤ sumLen pre)
    (hv1 : i1.is_invalid = false) (hv2 : i2.is_invalid = false) :
    trampoline_shellcode encode d1 original_address address required_size
      = trampoline_shellcode encode d2 original_address address
          required_size := by
  have h1 : relocate_loop required_size (d1 address) 0 []
      = .ok (sumLen pre, pre) := by
    rw [hd1, relocate_loop_run required_size pre (i1 :: rest1) 0 [] hpre
      (fun k hkk => by
        have := hk k hkk
        omega)]
    simp only [Nat.zero_add, List.nil_append]
    exact relocate_loop_cons_stop _ _ _ _ _ hv1 hge
  have h2 : relocate_loop required_size (d2 address) 0 []
      = .ok (sumLen pre, pre) := by
    rw [hd2, relocate_loop_run required_size pre (i2 :: rest2) 0 [] hpre
      (fun k hkk => by
        have := hk k hkk
        omega)]
    simp only [Nat.zero_add, List.nil_append]
    exact relocate_loop_cons_stop _ _ _ _ _ hv2 hge
  unfold trampoline_shellcode
  rw [h1, h2]

/-- Witness for the amended C4: with the minimum (1 byte) covered by a
2-byte sequential instruction, two streams that differ in everything after
that prefix — even ending in a malformed instruction — synthesize the same
trampoline. -/
theorem C4_break_after_minimum_witness :
    trampoline_shellcode encNop d41 0 0 1
      = trampoline_shellcode encNop d42 0 0 1 :=
  C4_break_after_minimum encNop d41 d42 0 0 1 [seqInstr 2] (seqInstr 3)
    (seqInstr 5) [invalidInstr] [] rfl rfl (by decide) (by decide) (by decide)
    rfl rfl

/-- C5 counterexample: `FunctionHook::new` passes `original_address`, not
`hook_address`, to `IoAllocateMdl`.  With a recording allocator,
`original_address = 4096` and `hook_address = 8192`, the constructed hook's
memory descriptor covers the page at the original address, not the page
containing the hook address. -/
theorem C5_counterexample :
    Option.map FunctionHook.mdl
        (FunctionHook.new recMdl encNop dSeq1 4096 8192 7)
      = some { base := 4096, size := 4096 } ∧
    Option.map FunctionHook.hook_address
        (FunctionHook.new recMdl encNop dSeq1 4096 8192 7) = some 8192 ∧
    (4096 : Nat) ≠ 8192 :=
  ⟨rfl, rfl, by decide⟩

/-- C5 amended: `FunctionHook::new` allocates and locks a memory descriptor
of exactly one hardware page based at `original_address` (not at
`hook_address`), and returns `none` when trampoline synthesis fails or when
the descriptor allocation fails; on success the hook owns that descriptor,
the synthesized trampoline, the hook address and the handler, with the
`Breakpoint` variant. -/
theorem C5_new_mdl_original (ioAllocateMdl : Nat → Nat → Option Mdl)
    (encode : List Instr → Option (List Nat)) (decodeAt : Nat → List Instr)
    (original_address hook_address handler : Nat) :
    (∀ e, trampoline_shellcode encode decodeAt original_address hook_address
        BP_SHELLCODE_LEN = .error e →
      FunctionHook.new ioAllocateMdl encode decodeAt original_address
        hook_address handler = none) ∧
    (ioAllocateMdl original_address BASE_PAGE_SIZE = none →
      FunctionHook.new ioAllocateMdl encode decodeAt original_address
        hook_address handler = none) ∧
    (∀ hk, FunctionHook.new ioAllocateMdl encode decodeAt original_address
        hook_address handler = some hk →
      ioAllocateMdl original_address BASE_PAGE_SIZE = some hk.mdl ∧
      trampoline_shellcode encode decodeAt original_address hook_address
        BP_SHELLCODE_LEN = .ok hk.trampoline ∧
      hk.hook_address = hook_address ∧
      hk.handler = handler ∧
      hk.hook_type = HookType.Breakpoint) := by
  refine ⟨?_, ?_, ?_⟩
  · intro e he
    unfold FunctionHook.new
    rw [he]
  · intro hn
    unfold FunctionHook.new
    cases hts : trampoline_shellcode encode decodeAt original_address
        hook_address BP_SHELLCODE_LEN with
    | error e => rfl
    | ok tr => rw [hn]
  · intro hk hnew
    unfold FunctionHook.new at hnew
    cases hts : trampoline_shellcode encode decodeAt original_address
        hook_address BP_SHELLCODE_LEN with
    | error e =>
      rw [hts] at hnew
      exact absurd hnew (by simp)
    | ok tr =>
      rw [hts] at hnew
      cases halloc : ioAllocateMdl original_address BASE_PAGE_SIZE with
      | none =>
        rw [halloc] at hnew
        exact absurd hnew (by simp)
      | some m =>
        rw [halloc] at hnew
        have hhk := Option.some.inj hnew
        rw [← hhk]
        exact ⟨rfl, rfl, rfl, rfl, rfl⟩

/-- Witness for the amended C5 at the recording allocator: the built hook
`hk0` owns the descriptor based at the original address 4096 of one page. -/
theorem C5_new_mdl_original_witness :
    recMdl 4096 BASE_PAGE_SIZE = some hk0.mdl ∧
    trampoline_shellcode encNop dSeq1 4096 8192 BP_SHELLCODE_LEN
      = .ok hk0.trampoline ∧
    hk0.hook_address = 8192 ∧
    hk0.handler = 7 ∧
    hk0.hook_type = HookType.Breakpoint :=
  (C5_new_mdl_original recMdl encNop dSeq1 4096 8192 7).2.2 hk0 rfl
